import Mathlib

/-!
Shallow embedding of the role/tab permission resolution engine of the
dom-bosco clinic management application.

Embedded source functions:
* `checkTabAccess` and `isRoleAllowed` from `src/js/auth.js` (the same
  definitions appear verbatim in the duplicate auth module `part_001`);
* the duplicate `checkTabAccess` variant from the supabase module
  (`src/unnamed/part_002`), here named `supabaseCheckTabAccess`;
* `saveUserPermissions`, `saveRole`, `deleteRole` from
  `src/js/funcionarios.js`;
* the duplicate `saveUserPermissions` variant from the employee-module
  duplicate (`src/unnamed/part_003`), here named `p3SaveUserPermissions`;
* the role constants from `src/unnamed/part_004` (roles.js).

JavaScript objects used as string-keyed maps are modelled as association
lists with unique keys; `null`/`undefined` maps are `Option.none`.  JS
truthiness of a looked-up string value is `v ≠ ""`.  DOM `<select>`
elements offer exactly the four options `default`, `none`, `view`,
`edit`, modelled by `SelectValue`.
-/

namespace DomBosco

/-- One recorded field change inside a `changeHistory` entry.  The code
stores either the placeholder text used for an empty override map or the
key-sorted JSON rendering of the map; we keep the map itself in sorted
form. -/
inductive HistValue where
  | roleDefault : HistValue
  | accessMap : List (String × String) → HistValue
  deriving Repr, DecidableEq

/-- One change record pushed by `saveUserPermissions`. -/
structure ChangeItem where
  field : String
  oldValue : HistValue
  newValue : HistValue
  deriving Repr, DecidableEq

/-- One `changeHistory` entry: id, ISO date, editor name, changes. -/
structure ChangeEntry where
  id : Nat
  date : String
  changedBy : String
  changes : List ChangeItem
  deriving Repr, DecidableEq

/-- A user record (`db.users` rows / the authenticated `currentUser`).
`tabAccess` is the per-user override map, `none` when the stored value
is `null`/`undefined`. -/
structure User where
  id : Nat
  name : String
  role : String
  tabAccess : Option (List (String × String))
  changeHistory : List ChangeEntry
  deriving Repr, DecidableEq

/-- A stored role record (`db.roles` rows). -/
structure Role where
  id : String
  name : String
  tabAccess : List (String × String)
  isCustom : Bool
  deriving Repr, DecidableEq

/-- Association-list lookup by string key, mirroring JS object property
access `m[k]`. -/
def alookup {α : Type} (m : List (String × α)) (k : String) : Option α :=
  match m with
  | [] => none
  | (k2, v) :: rest => if k2 == k then some v else alookup rest k

/-- Constant `PROFESSIONAL_ROLES` from roles.js (`part_004`). -/
def PROFESSIONAL_ROLES : List String :=
  ["staff", "intern", "musictherapist", "receptionist",
   "psychologist", "psychopedagogue", "speech_therapist",
   "nutritionist", "physiotherapist"]

/-- Constant `DIRECTOR_ONLY` from roles.js. -/
def DIRECTOR_ONLY : List String := ["director"]

/-- The per-tab role lists of a default-permission matrix entry. -/
structure TabPerm where
  view : List String
  edit : List String
  deriving Repr, DecidableEq

/-- Matrix `defaultTabPermissions` from `checkTabAccess` in `src/js/auth.js`. -/
def defaultTabPermissions : List (String × TabPerm) :=
  [("cadastro",
    ⟨["director", "coordinator", "professional", "staff", "receptionist"],
     ["director", "coordinator", "receptionist"]⟩),
   ("agenda",
    ⟨["director", "coordinator", "professional", "staff", "receptionist"],
     ["director", "coordinator", "professional", "receptionist"]⟩),
   ("historico",
    ⟨["director", "coordinator", "professional", "staff", "receptionist"],
     ["director", "coordinator"]⟩),
   ("meus-pacientes", ⟨PROFESSIONAL_ROLES, PROFESSIONAL_ROLES⟩),
   ("relatorios",
    ⟨["director", "financeiro", "coordinator"], ["director"]⟩),
   ("financeiro",
    ⟨["director", "financeiro"], ["director", "financeiro"]⟩),
   ("estoque",
    ⟨["director", "financeiro", "staff", "coordinator"],
     ["director", "financeiro", "coordinator"]⟩),
   ("funcionarios",
    ⟨["director", "coordinator"], ["director"]⟩),
   ("documentos",
    ⟨["director", "coordinator"], ["director", "coordinator"]⟩)]

/-- Lookup `defaultTabPermissions[tabId][requiredAccess] || []`: the role list
for the requested level, empty for any other request string. -/
def matrixRoles (p : TabPerm) (req : String) : List String :=
  if req == "view" then p.view else if req == "edit" then p.edit else []

/-- JS `user.tabAccess && user.tabAccess[tabId]`: the override value if
the map is non-null, holds the key, and the value is truthy (a
non-empty string). -/
def overrideLookup (ta : Option (List (String × String))) (tabId : String) :
    Option String :=
  match ta with
  | none => none
  | some m =>
    match alookup m tabId with
    | some v => if v == "" then none else some v
    | none => none

/-- Step 3 of `checkTabAccess` in auth.js: the fall-through to the
hard-coded per-role default matrix (unknown tab → false). -/
def roleFallback (u : User) (tabId req : String) : Bool :=
  match alookup defaultTabPermissions tabId with
  | none => false
  | some perm => (matrixRoles perm req).contains u.role

/-- Function `checkTabAccess(tabId, requiredAccess, user)` from `src/js/auth.js`
(lines 315-370; identical in the duplicate auth module `part_001`).
The `user` argument is the explicit user or the current user; `none`
models an unauthenticated call. -/
def checkTabAccess (tabId req : String) (user : Option User) : Bool :=
  match user with
  | none => false
  | some u =>
    if u.role == "director" then true
    else
      match overrideLookup u.tabAccess tabId with
      | some lvl =>
        if req == "view" then lvl == "view" || lvl == "edit"
        else if req == "edit" then lvl == "edit"
        else roleFallback u tabId req
      | none => roleFallback u tabId req

/-- The `tabPermissions` map of the supabase-module `checkTabAccess`
variant (`src/unnamed/part_002`, lines 151-197). -/
def supabaseTabPermissions : List (String × TabPerm) :=
  [("tab-cadastro",
    ⟨["director", "coordinator", "professional", "staff"],
     ["director", "coordinator", "professional"]⟩),
   ("tab-agenda",
    ⟨["director", "coordinator", "professional", "staff"],
     ["director", "coordinator", "professional"]⟩),
   ("tab-historico",
    ⟨["director", "coordinator", "professional", "staff"],
     ["director", "coordinator", "professional"]⟩),
   ("tab-relatorios",
    ⟨["director", "financeiro"], ["director"]⟩),
   ("tab-financeiro",
    ⟨["director", "financeiro"], ["director", "financeiro"]⟩),
   ("tab-estoque",
    ⟨["director", "financeiro", "staff"], ["director", "financeiro"]⟩),
   ("tab-funcionarios",
    ⟨["director", "coordinator"], ["director"]⟩)]

/-- Function `checkTabAccess(user, tabId, requiredAccess)` from the supabase
module (`src/unnamed/part_002`, lines 151-197).  Note that it checks
its own tab map before the director bypass and never reads
`user.tabAccess`. -/
def supabaseCheckTabAccess (user : Option User) (tabId req : String) : Bool :=
  match user with
  | none => false
  | some u =>
    match alookup supabaseTabPermissions tabId with
    | none => false
    | some perm =>
      let requiredRoles := matrixRoles perm req
      if u.role == "director" then true
      else requiredRoles.contains u.role

/-- The argument of `isRoleAllowed`: a single role string or an array
of role strings (the two shapes the code handles; any other JS value
yields `false` and is not modelled). -/
inductive RolesArg where
  | single : String → RolesArg
  | list : List String → RolesArg
  deriving Repr, DecidableEq

/-- Function `isRoleAllowed(allowedRoles)` from `src/js/auth.js` (lines 287-306),
with the global current user made explicit. -/
def isRoleAllowed (currentUser : Option User) (allowed : RolesArg) : Bool :=
  match currentUser with
  | none => false
  | some u =>
    match allowed with
    | .list l => l.any fun role => role == "authenticated" || u.role == role
    | .single s => s == "authenticated" || u.role == s

/-- The four options of the per-tab access `<select>` built by
`populateTabPermissions` (`default` = inherit the role default). -/
inductive SelectValue where
  | defaultOpt : SelectValue
  | noneOpt : SelectValue
  | viewOpt : SelectValue
  | editOpt : SelectValue
  deriving Repr, DecidableEq

/-- The DOM string value of a select option. -/
def SelectValue.toStr : SelectValue → String
  | .defaultOpt => "default"
  | .noneOpt => "none"
  | .viewOpt => "view"
  | .editOpt => "edit"

/-- Constant `allSystemTabs` from `src/js/funcionarios.js` (identical in
`part_003`): pairs of tab id and label. -/
def allSystemTabs : List (String × String) :=
  [("cadastro", "Cadastrar Cliente"),
   ("agenda", "Agenda do Dia"),
   ("historico", "Todos os pacientes"),
   ("meus-pacientes", "Meus Pacientes"),
   ("financeiro", "Financeiro"),
   ("relatorios", "Relatórios"),
   ("estoque", "Estoque"),
   ("funcionarios", "Funcionários"),
   ("documentos", "Mural do Coordenador")]

/-- The mutable module state the employee-management operations touch:
the stored users and roles (`db.users`, `db.roles`), the change-entry
counter (`db.nextChangeId`) and the authenticated current user. -/
structure St where
  users : List User
  roles : List Role
  nextChangeId : Nat
  currentUser : Option User
  deriving Repr, DecidableEq

/-- The distinct outcomes (notifications / silent return paths) of
`saveUserPermissions`. -/
inductive SavePermResult where
  | permissionError : SavePermResult
  | userNotFound : SavePermResult
  | selfModification : SavePermResult
  | saved : SavePermResult
  | noChange : SavePermResult
  deriving Repr, DecidableEq

/-- The `newTabAccess` loop of `saveUserPermissions`: for each system
tab whose select element exists, store the selection unless it is
`default`.  `sel` maps tab ids to the select values present in the
DOM. -/
def buildNewTabAccess (sel : List (String × SelectValue)) :
    List (String × String) :=
  allSystemTabs.filterMap fun tab =>
    match alookup sel tab.1 with
    | some v => if v.toStr != "default" then some (tab.1, v.toStr) else none
    | none => none

/-- Insertion of a pair into a key-sorted association list. -/
def insertByKey (p : String × String) :
    List (String × String) → List (String × String)
  | [] => [p]
  | q :: rest =>
    if (compare p.1 q.1).isLE then p :: q :: rest else q :: insertByKey p rest

/-- Key-sorted form of an association list; `JSON.stringify` with the
sorted-keys replacer renders a JS object in exactly this order. -/
def sortByKey (m : List (String × String)) : List (String × String) :=
  m.foldr insertByKey []

/-- Equality of two string maps (association lists with unique keys),
mirroring the comparison of their key-sorted JSON strings. -/
def mapEqb (m1 m2 : List (String × String)) : Bool :=
  (m1.all fun p => alookup m2 p.1 == some p.2) &&
  (m2.all fun p => alookup m1 p.1 == some p.2)

/-- The value recorded in the change entry for an override map: the
placeholder for an empty map, otherwise its sorted JSON form. -/
def histValue (m : List (String × String)) : HistValue :=
  if m.isEmpty then .roleDefault else .accessMap (sortByKey m)

/-- In-place mutation of the first user with the given id, mirroring
the JS mutation of the object returned by `db.users.find`. -/
def replaceById (users : List User) (uid : Nat) (u2 : User) : List User :=
  match users with
  | [] => []
  | u :: rest =>
    if u.id == uid then u2 :: rest else u :: replaceById rest uid u2

/-- Function `saveUserPermissions(userId)` from `src/js/funcionarios.js` (lines
268-327).  `sel` is the DOM state of the per-tab selects, `now` the
current ISO date string. -/
def saveUserPermissions (st : St) (userId : Nat)
    (sel : List (String × SelectValue)) (now : String) :
    St × SavePermResult :=
  if !(isRoleAllowed st.currentUser (.list DIRECTOR_ONLY)) then
    (st, .permissionError)
  else
    match st.users.find? (fun u => u.id == userId) with
    | none => (st, .userNotFound)
    | some user =>
      match st.currentUser with
      | none => (st, .permissionError)
      | some cu =>
        if user.id == cu.id then (st, .selfModification)
        else
          let newTabAccess := buildNewTabAccess sel
          let hasCustomAccess := !newTabAccess.isEmpty
          let oldAccess := user.tabAccess.getD []
          if mapEqb newTabAccess oldAccess then (st, .noChange)
          else
            let entry : ChangeEntry :=
              { id := st.nextChangeId
                date := now
                changedBy := cu.name
                changes := [{ field := "Permissões de Aba"
                              oldValue := histValue oldAccess
                              newValue := histValue newTabAccess }] }
            let user2 :=
              { user with
                changeHistory := user.changeHistory ++ [entry]
                tabAccess := if hasCustomAccess then some newTabAccess else none }
            ({ st with
               users := replaceById st.users userId user2
               nextChangeId := st.nextChangeId + 1 }, .saved)

/-- Function `saveUserPermissions(userId)` from the duplicate employee module
(`src/unnamed/part_003`, lines 333-369): same guards, but it stores the
new override map unconditionally and never touches `changeHistory`. -/
def p3SaveUserPermissions (st : St) (userId : Nat)
    (sel : List (String × SelectValue)) : St × SavePermResult :=
  if !(isRoleAllowed st.currentUser (.list DIRECTOR_ONLY)) then
    (st, .permissionError)
  else
    match st.users.find? (fun u => u.id == userId) with
    | none => (st, .userNotFound)
    | some user =>
      match st.currentUser with
      | none => (st, .permissionError)
      | some cu =>
        if user.id == cu.id then (st, .selfModification)
        else
          let newTabAccess := buildNewTabAccess sel
          let hasCustomAccess := !newTabAccess.isEmpty
          let user2 :=
            { user with
              tabAccess := if hasCustomAccess then some newTabAccess else none }
          ({ st with users := replaceById st.users userId user2 }, .saved)

/-- One character class step of the slug derivation: JS `\s`. -/
def isJsSpace (c : Char) : Bool :=
  c == ' ' || c == '\t' || c == '\n' || c == '\r' ||
  c == '\x0b' || c == '\x0c'

/-- JS `\w` (ASCII word character). -/
def isJsWord (c : Char) : Bool :=
  c.isAlpha || c.isDigit || c == '_'

/-- Step `replace(/\s+/g, "_")`: each maximal whitespace run becomes one
underscore. -/
def collapseSpaces : List Char → List Char
  | [] => []
  | c :: rest =>
    if isJsSpace c then
      match rest with
      | [] => ['_']
      | c2 :: _ =>
        if isJsSpace c2 then collapseSpaces rest
        else '_' :: collapseSpaces rest
    else c :: collapseSpaces rest

/-- The role-id derivation of `saveRole`:
`roleName.toLowerCase().replace(/\s+/g, "_").replace(/[^\w-]/g, "")`
(ASCII lowering; the role names of interest are ASCII). -/
def slugify (name : String) : String :=
  let lowered := name.data.map Char.toLower
  let collapsed := collapseSpaces lowered
  String.mk (collapsed.filter fun c => isJsWord c || c == '-')

/-- JS `String.prototype.trim`: strip whitespace from both ends
(written over the character list so that it evaluates by reduction). -/
def jsTrim (s : String) : String :=
  String.mk (((s.data.dropWhile isJsSpace).reverse.dropWhile isJsSpace).reverse)

/-- The outcomes of `saveRole`. -/
inductive SaveRoleResult where
  | nameRequired : SaveRoleResult
  | duplicateRole : SaveRoleResult
  | updated : SaveRoleResult
  | updateMissed : SaveRoleResult
  | created : SaveRoleResult
  deriving Repr, DecidableEq

/-- The `newTabAccess` loop of `saveRole`: selections that are neither
`default` nor `none` are stored. -/
def buildRoleTabAccess (sel : List (String × SelectValue)) :
    List (String × String) :=
  allSystemTabs.filterMap fun tab =>
    match alookup sel tab.1 with
    | some v =>
      if v.toStr != "default" && v.toStr != "none" then some (tab.1, v.toStr)
      else none
    | none => none

/-- In-place mutation of the first role with the given id. -/
def replaceRoleById (roles : List Role) (rid : String) (r2 : Role) :
    List Role :=
  match roles with
  | [] => []
  | r :: rest =>
    if r.id == rid then r2 :: rest else r :: replaceRoleById rest rid r2

/-- The reserved ids checked by `saveRole` on creation. -/
def reservedRoleIds : List String := ["director", "staff", "intern"]

/-- Function `saveRole()` from `src/js/funcionarios.js` (lines 1012-1055).
`roleIdInput` is the hidden id field (empty when creating),
`roleNameRaw` the name field, `sel` the per-tab selects.  The function
performs no permission check on the acting user. -/
def saveRole (st : St) (roleIdInput roleNameRaw : String)
    (sel : List (String × SelectValue)) : St × SaveRoleResult :=
  let roleName := jsTrim roleNameRaw
  if roleName == "" then (st, .nameRequired)
  else
    let newTabAccess := buildRoleTabAccess sel
    if roleIdInput != "" then
      match st.roles.find? (fun r => r.id == roleIdInput) with
      | some role =>
        ({ st with
           roles := replaceRoleById st.roles roleIdInput
             { role with name := roleName, tabAccess := newTabAccess } },
         .updated)
      | none => (st, .updateMissed)
    else
      let newRoleId := slugify roleName
      if st.roles.any (fun r => r.id == newRoleId) ||
         reservedRoleIds.contains newRoleId then
        (st, .duplicateRole)
      else
        ({ st with
           roles := st.roles ++
             [{ id := newRoleId, name := roleName,
                tabAccess := newTabAccess, isCustom := true }] },
         .created)

/-- Function `deleteRole(roleId)` from `src/js/funcionarios.js` (lines 907-914):
filters the role out and saves; no permission check, no user
reassignment. -/
def deleteRole (st : St) (roleId : String) : St :=
  { st with roles := st.roles.filter fun r => r.id != roleId }


theorem alookup_mem {α : Type} {m : List (String × α)} {k : String} {v : α}
    (h : alookup m k = some v) : (k, v) ∈ m := by
  induction m with
  | nil => simp [alookup] at h
  | cons p rest ih =>
    obtain ⟨k2, v2⟩ := p
    unfold alookup at h
    by_cases hk : (k2 == k) = true
    · rw [if_pos hk] at h
      obtain rfl := Option.some.inj h
      obtain rfl := eq_of_beq hk
      exact List.mem_cons_self _ _
    · rw [if_neg hk] at h
      exact List.mem_cons_of_mem _ (ih h)

theorem defaultMatrix_edit_sub_view :
    ∀ p ∈ defaultTabPermissions, ∀ r ∈ (TabPerm.edit p.2), r ∈ (TabPerm.view p.2) := by
  decide

theorem supabaseMatrix_edit_sub_view :
    ∀ p ∈ supabaseTabPermissions, ∀ r ∈ (TabPerm.edit p.2), r ∈ (TabPerm.view p.2) := by
  decide

theorem matrixRoles_view (p : TabPerm) : matrixRoles p "view" = p.view := rfl
theorem matrixRoles_edit (p : TabPerm) : matrixRoles p "edit" = p.edit := rfl

theorem roleFallback_none (u : User) (tab req : String)
    (hl : alookup defaultTabPermissions tab = none) :
    roleFallback u tab req = false := by
  unfold roleFallback; rw [hl]

theorem roleFallback_some (u : User) (tab req : String) (perm : TabPerm)
    (hl : alookup defaultTabPermissions tab = some perm) :
    roleFallback u tab req = (matrixRoles perm req).contains u.role := by
  unfold roleFallback; rw [hl]

theorem checkTabAccess_director (tab req : String) (u : User)
    (hd : u.role = "director") : checkTabAccess tab req (some u) = true := by
  simp only [checkTabAccess]
  rw [if_pos (by simp [hd])]

theorem checkTabAccess_ov (tab req : String) (u : User) (lvl : String)
    (hd : (u.role == "director") = false)
    (ho : overrideLookup u.tabAccess tab = some lvl) :
    checkTabAccess tab req (some u) =
      (if req == "view" then lvl == "view" || lvl == "edit"
       else if req == "edit" then lvl == "edit"
       else roleFallback u tab req) := by
  simp only [checkTabAccess]
  rw [if_neg (by simp [hd]), ho]

theorem checkTabAccess_noov (tab req : String) (u : User)
    (hd : (u.role == "director") = false)
    (ho : overrideLookup u.tabAccess tab = none) :
    checkTabAccess tab req (some u) = roleFallback u tab req := by
  simp only [checkTabAccess]
  rw [if_neg (by simp [hd]), ho]

theorem supabase_none (tab req : String) (u : User)
    (hl : alookup supabaseTabPermissions tab = none) :
    supabaseCheckTabAccess (some u) tab req = false := by
  simp only [supabaseCheckTabAccess]
  rw [hl]

theorem supabase_some (tab req : String) (u : User) (perm : TabPerm)
    (hl : alookup supabaseTabPermissions tab = some perm) :
    supabaseCheckTabAccess (some u) tab req =
      (if u.role == "director" then true
       else (matrixRoles perm req).contains u.role) := by
  simp only [supabaseCheckTabAccess]
  rw [hl]

theorem roleFallback_edit_view (u : User) (tab : String)
    (h : roleFallback u tab "edit" = true) : roleFallback u tab "view" = true := by
  cases hl : alookup defaultTabPermissions tab with
  | none => rw [roleFallback_none u tab "edit" hl] at h; exact absurd h (by simp)
  | some perm =>
    rw [roleFallback_some u tab "edit" perm hl, matrixRoles_edit] at h
    rw [roleFallback_some u tab "view" perm hl, matrixRoles_view]
    exact List.elem_eq_true_of_mem
      (defaultMatrix_edit_sub_view _ (alookup_mem hl) _ (List.mem_of_elem_eq_true h))

/-- C7: for every user and tab, a successful edit check implies a
successful view check, in both `checkTabAccess` variants. -/
theorem checkTabAccess_edit_implies_view (user : Option User) (tab : String) :
    (checkTabAccess tab "edit" user = true → checkTabAccess tab "view" user = true) ∧
    (supabaseCheckTabAccess user tab "edit" = true →
      supabaseCheckTabAccess user tab "view" = true) := by
  constructor
  · intro h
    cases user with
    | none => simp [checkTabAccess] at h
    | some u =>
      by_cases hd : (u.role == "director") = true
      · exact checkTabAccess_director tab "view" u (eq_of_beq hd)
      · have hdd : (u.role == "director") = false := by
          revert hd; cases (u.role == "director") <;> simp
        cases ho : overrideLookup u.tabAccess tab with
        | some lvl =>
          rw [checkTabAccess_ov tab "edit" u lvl hdd ho,
            if_neg (by decide), if_pos (by decide)] at h
          rw [checkTabAccess_ov tab "view" u lvl hdd ho, if_pos (by decide)]
          simp [h]
        | none =>
          rw [checkTabAccess_noov tab "edit" u hdd ho] at h
          rw [checkTabAccess_noov tab "view" u hdd ho]
          exact roleFallback_edit_view u tab h
  · intro h
    cases user with
    | none => simp [supabaseCheckTabAccess] at h
    | some u =>
      cases hl : alookup supabaseTabPermissions tab with
      | none => rw [supabase_none tab "edit" u hl] at h; exact absurd h (by simp)
      | some perm =>
        rw [supabase_some tab "edit" u perm hl] at h
        rw [supabase_some tab "view" u perm hl]
        by_cases hd : (u.role == "director") = true
        · rw [if_pos hd]
        · rw [if_neg hd] at h ⊢
          rw [matrixRoles_edit] at h
          rw [matrixRoles_view]
          exact List.elem_eq_true_of_mem
            (supabaseMatrix_edit_sub_view _ (alookup_mem hl) _ (List.mem_of_elem_eq_true h))

theorem c7_witness :
    checkTabAccess "financeiro" "edit" (some ⟨10, "Fin", "financeiro", none, []⟩) = true ∧
    checkTabAccess "financeiro" "view" (some ⟨10, "Fin", "financeiro", none, []⟩) = true :=
  ⟨by decide,
   (checkTabAccess_edit_implies_view (some ⟨10, "Fin", "financeiro", none, []⟩)
     "financeiro").1 (by decide)⟩

/-- C1 counterexample: a user with the super-role 'director' is denied
view access by the supabase-module tab check on the tab id "cadastro"
(a tab id absent from that variant's permission map), so the check does
not grant every tab id unconditionally. -/
theorem c1_director_denied_on_unmapped_tab :
    supabaseCheckTabAccess
      (some ⟨1, "Diretora", "director", some [("financeiro", "none")], []⟩)
      "cadastro" "view" = false := by decide

/-- C1 amended: the auth-module `checkTabAccess` grants a director every
tab id and request level unconditionally, regardless of overrides; the
supabase-module variant grants a director exactly the tab ids present in
its own permission map (requests on unmapped tab ids are denied before
the director bypass). -/
theorem c1_director_bypass_amended (tab req : String) (u : User)
    (hd : u.role = "director") :
    checkTabAccess tab req (some u) = true ∧
    supabaseCheckTabAccess (some u) tab req =
      (alookup supabaseTabPermissions tab).isSome := by
  refine ⟨checkTabAccess_director tab req u hd, ?_⟩
  cases hl : alookup supabaseTabPermissions tab with
  | none => rw [supabase_none tab req u hl]; rfl
  | some perm =>
    rw [supabase_some tab req u perm hl, if_pos (by simp [hd])]
    rfl

theorem c1_amended_witness :
    checkTabAccess "zzz" "edit"
      (some ⟨1, "Diretora", "director", some [("financeiro", "none")], []⟩) = true ∧
    supabaseCheckTabAccess
      (some ⟨1, "Diretora", "director", some [("financeiro", "none")], []⟩)
      "tab-financeiro" "edit" =
      (alookup supabaseTabPermissions "tab-financeiro").isSome :=
  ⟨(c1_director_bypass_amended "zzz" "edit"
      ⟨1, "Diretora", "director", some [("financeiro", "none")], []⟩ rfl).1,
   (c1_director_bypass_amended "tab-financeiro" "edit"
      ⟨1, "Diretora", "director", some [("financeiro", "none")], []⟩ rfl).2⟩

/-- C2 counterexample: a staff user with the explicit override
`tab-cadastro ↦ none` is still granted view access on `tab-cadastro` by
the supabase-module tab check, so a set override does not determine the
result of that check. -/
theorem c2_override_ignored_by_supabase_variant :
    supabaseCheckTabAccess
      (some ⟨5, "Sta", "staff", some [("tab-cadastro", "none")], []⟩)
      "tab-cadastro" "view" = true := by decide

/-- C2 amended: in the auth-module `checkTabAccess` a set override is
terminal for non-director users exactly as claimed (view succeeds iff
the override is view or edit, edit succeeds iff it is edit, including
downgrades to none); the supabase-module variant ignores per-user
overrides entirely, resolving from its role matrix alone. -/
theorem c2_override_terminal_amended (u : User) (m : List (String × String))
    (tab lvl req : String)
    (hd : u.role ≠ "director")
    (hm : u.tabAccess = some m)
    (hv : alookup m tab = some lvl)
    (hlv : lvl = "none" ∨ lvl = "view" ∨ lvl = "edit") :
    (checkTabAccess tab "view" (some u) = (lvl == "view" || lvl == "edit") ∧
     checkTabAccess tab "edit" (some u) = (lvl == "edit")) ∧
    supabaseCheckTabAccess (some u) tab req =
      supabaseCheckTabAccess (some { u with tabAccess := none }) tab req := by
  have hdd : (u.role == "director") = false := beq_eq_false_iff_ne.mpr hd
  have hne : (lvl == "") = false := by
    rcases hlv with rfl | rfl | rfl <;> decide
  have ho : overrideLookup u.tabAccess tab = some lvl := by
    rw [hm]
    simp only [overrideLookup, hv, hne]
    rfl
  refine ⟨⟨?_, ?_⟩, rfl⟩
  · rw [checkTabAccess_ov tab "view" u lvl hdd ho, if_pos (by decide)]
  · rw [checkTabAccess_ov tab "edit" u lvl hdd ho,
      if_neg (by decide), if_pos (by decide)]

theorem c2_amended_witness :
    checkTabAccess "financeiro" "view"
      (some ⟨10, "Fin", "financeiro", some [("financeiro", "none")], []⟩) =
      (("none" == "view") || ("none" == "edit")) ∧
    checkTabAccess "financeiro" "edit"
      (some ⟨10, "Fin", "financeiro", some [("financeiro", "none")], []⟩) =
      ("none" == "edit") :=
  (c2_override_terminal_amended
    ⟨10, "Fin", "financeiro", some [("financeiro", "none")], []⟩
    [("financeiro", "none")] "financeiro" "none" "view"
    (by decide) rfl (by decide) (Or.inl rfl)).1

/-- C3: creating the custom role "Chefe Financeiro" with the matrix
mapping the tab `financeiro` to `edit` stores exactly that matrix, yet
the permission resolver `checkTabAccess` denies a user holding the new
role both edit and view on `financeiro`: the resolver never consults
stored custom-role matrices, so the persisted matrix has no effect. -/
theorem c3_custom_role_matrix_never_resolved :
    (saveRole ⟨[], [], 0, some ⟨1, "Dir", "director", none, []⟩⟩ ""
        "Chefe Financeiro" [("financeiro", .editOpt)]).1.roles =
      [⟨"chefe_financeiro", "Chefe Financeiro", [("financeiro", "edit")], true⟩] ∧
    (saveRole ⟨[], [], 0, some ⟨1, "Dir", "director", none, []⟩⟩ ""
        "Chefe Financeiro" [("financeiro", .editOpt)]).2 = .created ∧
    checkTabAccess "financeiro" "edit"
      (some ⟨2, "Ana", "chefe_financeiro", none, []⟩) = false ∧
    checkTabAccess "financeiro" "view"
      (some ⟨2, "Ana", "chefe_financeiro", none, []⟩) = false := by
  decide

/-- C9: whenever a current user exists, `isRoleAllowed` accepts the
allowed-roles argument "authenticated", both as the bare string and as
a member of an array, whatever the user's role; with no current user it
returns false for every argument. -/
theorem isRoleAllowed_authenticated (u : User) (l : List String)
    (arg : RolesArg) (hl : "authenticated" ∈ l) :
    isRoleAllowed (some u) (.list l) = true ∧
    isRoleAllowed (some u) (.single "authenticated") = true ∧
    isRoleAllowed none arg = false := by
  refine ⟨?_, by simp [isRoleAllowed], rfl⟩
  simp only [isRoleAllowed]
  exact List.any_eq_true.mpr ⟨"authenticated", hl, by simp⟩

theorem c9_witness :
    isRoleAllowed (some ⟨7, "I", "intern", none, []⟩)
      (.list ["authenticated"]) = true ∧
    isRoleAllowed (some ⟨7, "I", "intern", none, []⟩)
      (.single "authenticated") = true ∧
    isRoleAllowed none (.single "authenticated") = false :=
  isRoleAllowed_authenticated ⟨7, "I", "intern", none, []⟩ ["authenticated"]
    (.single "authenticated") (by decide)

theorem saveRole_nameRequired (st : St) (rid name : String)
    (sel : List (String × SelectValue)) (hn : (jsTrim name == "") = true) :
    saveRole st rid name sel = (st, .nameRequired) := by
  simp only [saveRole]
  rw [if_pos hn]

theorem saveRole_create_dup (st : St) (name : String)
    (sel : List (String × SelectValue)) (hn : (jsTrim name == "") = false)
    (hdup : (st.roles.any (fun r => r.id == slugify (jsTrim name)) ||
             reservedRoleIds.contains (slugify (jsTrim name))) = true) :
    saveRole st "" name sel = (st, .duplicateRole) := by
  simp only [saveRole]
  rw [if_neg (by simp [hn]), if_neg (by decide), if_pos hdup]

theorem saveRole_create_ok (st : St) (name : String)
    (sel : List (String × SelectValue)) (hn : (jsTrim name == "") = false)
    (hdup : (st.roles.any (fun r => r.id == slugify (jsTrim name)) ||
             reservedRoleIds.contains (slugify (jsTrim name))) = false) :
    saveRole st "" name sel =
      ({ st with roles := st.roles ++
          [⟨slugify (jsTrim name), jsTrim name, buildRoleTabAccess sel, true⟩] },
       .created) := by
  simp only [saveRole]
  rw [if_neg (by simp [hn]), if_neg (by decide), if_neg (ne_true_of_eq_false hdup)]

theorem saveRole_update_found (st : St) (rid name : String)
    (sel : List (String × SelectValue)) (role : Role)
    (hn : (jsTrim name == "") = false) (hr : (rid != "") = true)
    (hfind : st.roles.find? (fun r => r.id == rid) = some role) :
    saveRole st rid name sel =
      ({ st with roles := (replaceRoleById st.roles rid
          ⟨role.id, jsTrim name, buildRoleTabAccess sel, role.isCustom⟩) },
       .updated) := by
  simp only [saveRole]
  rw [if_neg (by simp [hn]), if_pos hr, hfind]

theorem saveRole_update_missing (st : St) (rid name : String)
    (sel : List (String × SelectValue))
    (hn : (jsTrim name == "") = false) (hr : (rid != "") = true)
    (hfind : st.roles.find? (fun r => r.id == rid) = none) :
    saveRole st rid name sel = (st, .updateMissed) := by
  simp only [saveRole]
  rw [if_neg (by simp [hn]), if_pos hr, hfind]

theorem bool_false_of_not_true {b : Bool} (h : ¬(b = true)) : b = false := by
  revert h; cases b <;> simp

theorem mem_replaceRoleById {roles : List Role} {rid : String} {r2 r : Role}
    (h : r ∈ replaceRoleById roles rid r2) : r ∈ roles ∨ r = r2 := by
  induction roles with
  | nil => simp [replaceRoleById] at h
  | cons a rest ih =>
    unfold replaceRoleById at h
    by_cases ha : (a.id == rid) = true
    · rw [if_pos ha] at h
      rcases List.mem_cons.mp h with rfl | hm
      · right; rfl
      · left; exact List.mem_cons_of_mem _ hm
    · rw [if_neg ha] at h
      rcases List.mem_cons.mp h with rfl | hm
      · left; exact List.mem_cons_self _ _
      · rcases ih hm with h1 | h2
        · left; exact List.mem_cons_of_mem _ h1
        · right; exact h2

theorem buildRoleTabAccess_values (sel : List (String × SelectValue)) :
    ∀ p ∈ buildRoleTabAccess sel, p.2 = "view" ∨ p.2 = "edit" := by
  intro p hp
  unfold buildRoleTabAccess at hp
  rw [List.mem_filterMap] at hp
  obtain ⟨tab, htab, hf⟩ := hp
  cases hv : alookup sel tab.1 with
  | none => rw [hv] at hf; simp at hf
  | some v =>
    rw [hv] at hf
    cases v with
    | defaultOpt => simp [SelectValue.toStr] at hf
    | noneOpt => simp [SelectValue.toStr] at hf
    | viewOpt =>
      simp [SelectValue.toStr] at hf
      left; rw [← hf]
    | editOpt =>
      simp [SelectValue.toStr] at hf
      right; rw [← hf]

/-- C4 counterexample: with a staff member as the current user (not the
super-role), `deleteRole` still removes the stored role and `saveRole`
still creates a new one — neither operation fails with a permission
error nor leaves the role set untouched. -/
theorem c4_role_mutation_without_permission_check :
    (deleteRole ⟨[], [⟨"cargo_x", "Cargo X", [], true⟩], 0,
        some ⟨5, "Sta", "staff", none, []⟩⟩ "cargo_x").roles = [] ∧
    (saveRole ⟨[], [⟨"cargo_x", "Cargo X", [], true⟩], 0,
        some ⟨5, "Sta", "staff", none, []⟩⟩ "" "Novo Cargo" []).2 = .created ∧
    (saveRole ⟨[], [⟨"cargo_x", "Cargo X", [], true⟩], 0,
        some ⟨5, "Sta", "staff", none, []⟩⟩ "" "Novo Cargo" []).1.roles =
      [⟨"cargo_x", "Cargo X", [], true⟩, ⟨"novo_cargo", "Novo Cargo", [], true⟩] := by
  decide

/-- C4 amended: the role-administration operations `deleteRole` and
`saveRole` perform no permission check at all — their outcome is
independent of the current user, so any actor (or none) mutates the
stored role set; only `saveUserPermissions` enforces the super-role
gate. -/
theorem role_admin_unchecked_amended (st : St) (cu : Option User)
    (roleId ridIn name : String) (sel : List (String × SelectValue)) :
    (deleteRole { st with currentUser := cu } roleId).roles =
      st.roles.filter (fun r => r.id != roleId) ∧
    (saveRole { st with currentUser := cu } ridIn name sel).1.roles =
      (saveRole st ridIn name sel).1.roles ∧
    (saveRole { st with currentUser := cu } ridIn name sel).2 =
      (saveRole st ridIn name sel).2 := by
  refine ⟨rfl, ?_⟩
  by_cases hn : (jsTrim name == "") = true
  · rw [saveRole_nameRequired { st with currentUser := cu } ridIn name sel hn,
      saveRole_nameRequired st ridIn name sel hn]
    exact ⟨rfl, rfl⟩
  · have hnf := bool_false_of_not_true hn
    by_cases hr : (ridIn != "") = true
    · cases hfind : st.roles.find? (fun r => r.id == ridIn) with
      | none =>
        rw [saveRole_update_missing { st with currentUser := cu } ridIn name sel hnf hr hfind,
          saveRole_update_missing st ridIn name sel hnf hr hfind]
        exact ⟨rfl, rfl⟩
      | some role =>
        rw [saveRole_update_found { st with currentUser := cu } ridIn name sel role hnf hr hfind,
          saveRole_update_found st ridIn name sel role hnf hr hfind]
        exact ⟨rfl, rfl⟩
    · obtain rfl : ridIn = "" := by
        have := bool_false_of_not_true hr
        simp [bne] at this
        exact this
      by_cases hdup : (st.roles.any (fun r => r.id == slugify (jsTrim name)) ||
          reservedRoleIds.contains (slugify (jsTrim name))) = true
      · rw [saveRole_create_dup { st with currentUser := cu } name sel hnf hdup,
          saveRole_create_dup st name sel hnf hdup]
        exact ⟨rfl, rfl⟩
      · have hdupf := bool_false_of_not_true hdup
        rw [saveRole_create_ok { st with currentUser := cu } name sel hnf hdupf,
          saveRole_create_ok st name sel hnf hdupf]
        exact ⟨rfl, rfl⟩

/-- C5 counterexample: creating a role named "Financeiro" on an empty
role set succeeds and appends a role with the reserved built-in id
`financeiro` — no duplicate-role error is raised for built-in ids other
than director, staff and intern. -/
theorem c5_builtin_id_not_reserved :
    saveRole ⟨[], [], 0, none⟩ "" "Financeiro" [] =
      (⟨[], [⟨"financeiro", "Financeiro", [], true⟩], 0, none⟩, .created) := by
  decide

/-- C5 amended: `saveRole` (create path) fails with the duplicate-role
error exactly when the slugified name collides with an id already in
the stored role set or with one of the reserved ids director, staff,
intern (other built-in ids such as financeiro are not blocked); on a
duplicate nothing changes, and otherwise the new role is appended with
`isCustom = true`. -/
theorem saveRole_duplicate_amended (st : St) (name : String)
    (sel : List (String × SelectValue)) :
    ((saveRole st "" name sel).2 = .duplicateRole ↔
      ((jsTrim name == "") = false ∧
       (st.roles.any (fun r => r.id == slugify (jsTrim name)) ||
        reservedRoleIds.contains (slugify (jsTrim name))) = true)) ∧
    ((saveRole st "" name sel).2 = .duplicateRole →
      (saveRole st "" name sel).1 = st) ∧
    ((saveRole st "" name sel).2 = .created →
      (saveRole st "" name sel).1.roles =
        st.roles ++ [⟨slugify (jsTrim name), jsTrim name,
                      buildRoleTabAccess sel, true⟩]) := by
  by_cases hn : (jsTrim name == "") = true
  · rw [saveRole_nameRequired st "" name sel hn]
    refine ⟨?_, by simp, by simp⟩
    constructor
    · intro h; simp at h
    · rintro ⟨h1, _⟩; rw [hn] at h1; cases h1
  · have hnf := bool_false_of_not_true hn
    by_cases hdup : (st.roles.any (fun r => r.id == slugify (jsTrim name)) ||
        reservedRoleIds.contains (slugify (jsTrim name))) = true
    · rw [saveRole_create_dup st name sel hnf hdup]
      exact ⟨⟨fun _ => ⟨hnf, hdup⟩, fun _ => rfl⟩, fun _ => rfl, by simp⟩
    · have hdupf := bool_false_of_not_true hdup
      rw [saveRole_create_ok st name sel hnf hdupf]
      refine ⟨?_, by simp, fun _ => rfl⟩
      constructor
      · intro h; simp at h
      · rintro ⟨_, h2⟩; rw [hdupf] at h2; cases h2

theorem c5_amended_witness :
    (saveRole ⟨[], [⟨"financeiro", "Financeiro", [], true⟩], 0, none⟩
      "" "Financeiro" []).2 = .duplicateRole ∧
    (saveRole ⟨[], [⟨"financeiro", "Financeiro", [], true⟩], 0, none⟩
      "" "Financeiro" []).1 =
      ⟨[], [⟨"financeiro", "Financeiro", [], true⟩], 0, none⟩ :=
  ⟨(saveRole_duplicate_amended
      ⟨[], [⟨"financeiro", "Financeiro", [], true⟩], 0, none⟩
      "Financeiro" []).1.mpr (by decide),
   (saveRole_duplicate_amended
      ⟨[], [⟨"financeiro", "Financeiro", [], true⟩], 0, none⟩
      "Financeiro" []).2.1
     ((saveRole_duplicate_amended
        ⟨[], [⟨"financeiro", "Financeiro", [], true⟩], 0, none⟩
        "Financeiro" []).1.mpr (by decide))⟩

/-- C10: every matrix persisted by `saveRole` maps tabs only to view or
edit (a default or none selection is stored as absence of the key), and
this invariant on stored custom role matrices is preserved by both the
create and the update path. -/
theorem customRole_matrix_values (st : St) (ridIn name : String)
    (sel : List (String × SelectValue))
    (hinv : ∀ r ∈ st.roles, ∀ p ∈ r.tabAccess, p.2 = "view" ∨ p.2 = "edit") :
    (∀ p ∈ buildRoleTabAccess sel, p.2 = "view" ∨ p.2 = "edit") ∧
    (∀ r ∈ (saveRole st ridIn name sel).1.roles, ∀ p ∈ r.tabAccess,
      p.2 = "view" ∨ p.2 = "edit") := by
  refine ⟨buildRoleTabAccess_values sel, ?_⟩
  by_cases hn : (jsTrim name == "") = true
  · rw [saveRole_nameRequired st ridIn name sel hn]; exact hinv
  · have hnf := bool_false_of_not_true hn
    by_cases hr : (ridIn != "") = true
    · cases hfind : st.roles.find? (fun r => r.id == ridIn) with
      | none => rw [saveRole_update_missing st ridIn name sel hnf hr hfind]; exact hinv
      | some role =>
        rw [saveRole_update_found st ridIn name sel role hnf hr hfind]
        intro r hr2 p hp
        rcases mem_replaceRoleById hr2 with hm | rfl
        · exact hinv r hm p hp
        · exact buildRoleTabAccess_values sel p hp
    · obtain rfl : ridIn = "" := by
        have := bool_false_of_not_true hr
        simp [bne] at this
        exact this
      by_cases hdup : (st.roles.any (fun r => r.id == slugify (jsTrim name)) ||
          reservedRoleIds.contains (slugify (jsTrim name))) = true
      · rw [saveRole_create_dup st name sel hnf hdup]; exact hinv
      · have hdupf := bool_false_of_not_true hdup
        rw [saveRole_create_ok st name sel hnf hdupf]
        intro r hr2 p hp
        rcases List.mem_append.mp hr2 with hm | hm
        · exact hinv r hm p hp
        · rw [List.mem_singleton.mp hm] at hp
          exact buildRoleTabAccess_values sel p hp

theorem c10_witness :
    (("agenda", "edit") : String × String).2 = "view" ∨
    (("agenda", "edit") : String × String).2 = "edit" :=
  (customRole_matrix_values ⟨[], [], 0, none⟩ "" "Novo"
      [("agenda", .editOpt)] (by decide)).2
    ⟨"novo", "Novo", [("agenda", "edit")], true⟩ (by decide)
    ("agenda", "edit") (by decide)

theorem sup_perm (st : St) (uid : Nat) (sel : List (String × SelectValue))
    (now : String)
    (hra : isRoleAllowed st.currentUser (.list DIRECTOR_ONLY) = false) :
    saveUserPermissions st uid sel now = (st, .permissionError) := by
  simp only [saveUserPermissions, hra]
  rfl

theorem sup_notfound (st : St) (uid : Nat) (sel : List (String × SelectValue))
    (now : String)
    (hra : isRoleAllowed st.currentUser (.list DIRECTOR_ONLY) = true)
    (hfind : st.users.find? (fun u => u.id == uid) = none) :
    saveUserPermissions st uid sel now = (st, .userNotFound) := by
  simp only [saveUserPermissions, hra, hfind]
  rfl

theorem sup_self (st : St) (uid : Nat) (sel : List (String × SelectValue))
    (now : String) (cu target : User)
    (hra : isRoleAllowed st.currentUser (.list DIRECTOR_ONLY) = true)
    (hfind : st.users.find? (fun u => u.id == uid) = some target)
    (hcu : st.currentUser = some cu)
    (hself : (target.id == cu.id) = true) :
    saveUserPermissions st uid sel now = (st, .selfModification) := by
  have hra2 : isRoleAllowed (some cu) (.list DIRECTOR_ONLY) = true := hcu ▸ hra
  simp [saveUserPermissions, hcu, hra2, hfind, hself]

theorem sup_nochange (st : St) (uid : Nat) (sel : List (String × SelectValue))
    (now : String) (cu target : User)
    (hra : isRoleAllowed st.currentUser (.list DIRECTOR_ONLY) = true)
    (hfind : st.users.find? (fun u => u.id == uid) = some target)
    (hcu : st.currentUser = some cu)
    (hself : (target.id == cu.id) = false)
    (heq : mapEqb (buildNewTabAccess sel) (target.tabAccess.getD []) = true) :
    saveUserPermissions st uid sel now = (st, .noChange) := by
  have hra2 : isRoleAllowed (some cu) (.list DIRECTOR_ONLY) = true := hcu ▸ hra
  simp [saveUserPermissions, hcu, hra2, hfind, hself, heq]

theorem sup_saved (st : St) (uid : Nat) (sel : List (String × SelectValue))
    (now : String) (cu target : User)
    (hra : isRoleAllowed st.currentUser (.list DIRECTOR_ONLY) = true)
    (hfind : st.users.find? (fun u => u.id == uid) = some target)
    (hcu : st.currentUser = some cu)
    (hself : (target.id == cu.id) = false)
    (heq : mapEqb (buildNewTabAccess sel) (target.tabAccess.getD []) = false) :
    saveUserPermissions st uid sel now =
      ({ st with
         users := (replaceById st.users uid
           ⟨target.id, target.name, target.role,
            (if !(buildNewTabAccess sel).isEmpty
             then some (buildNewTabAccess sel) else none),
            target.changeHistory ++
              [⟨st.nextChangeId, now, cu.name,
                [⟨"Permissões de Aba", histValue (target.tabAccess.getD []),
                  histValue (buildNewTabAccess sel)⟩]⟩]⟩)
         nextChangeId := st.nextChangeId + 1 }, .saved) := by
  have hra2 : isRoleAllowed (some cu) (.list DIRECTOR_ONLY) = true := hcu ▸ hra
  simp [saveUserPermissions, hcu, hra2, hfind, hself, heq]

theorem p3_perm (st : St) (uid : Nat) (sel : List (String × SelectValue))
    (hra : isRoleAllowed st.currentUser (.list DIRECTOR_ONLY) = false) :
    p3SaveUserPermissions st uid sel = (st, .permissionError) := by
  simp only [p3SaveUserPermissions, hra]
  rfl

theorem p3_notfound (st : St) (uid : Nat) (sel : List (String × SelectValue))
    (hra : isRoleAllowed st.currentUser (.list DIRECTOR_ONLY) = true)
    (hfind : st.users.find? (fun u => u.id == uid) = none) :
    p3SaveUserPermissions st uid sel = (st, .userNotFound) := by
  simp only [p3SaveUserPermissions, hra, hfind]
  rfl

theorem p3_self (st : St) (uid : Nat) (sel : List (String × SelectValue))
    (cu target : User)
    (hra : isRoleAllowed st.currentUser (.list DIRECTOR_ONLY) = true)
    (hfind : st.users.find? (fun u => u.id == uid) = some target)
    (hcu : st.currentUser = some cu)
    (hself : (target.id == cu.id) = true) :
    p3SaveUserPermissions st uid sel = (st, .selfModification) := by
  have hra2 : isRoleAllowed (some cu) (.list DIRECTOR_ONLY) = true := hcu ▸ hra
  simp [p3SaveUserPermissions, hcu, hra2, hfind, hself]

theorem p3_saved (st : St) (uid : Nat) (sel : List (String × SelectValue))
    (cu target : User)
    (hra : isRoleAllowed st.currentUser (.list DIRECTOR_ONLY) = true)
    (hfind : st.users.find? (fun u => u.id == uid) = some target)
    (hcu : st.currentUser = some cu)
    (hself : (target.id == cu.id) = false) :
    p3SaveUserPermissions st uid sel =
      ({ st with
         users := (replaceById st.users uid
           ⟨target.id, target.name, target.role,
            (if !(buildNewTabAccess sel).isEmpty
             then some (buildNewTabAccess sel) else none),
            target.changeHistory⟩) }, .saved) := by
  have hra2 : isRoleAllowed (some cu) (.list DIRECTOR_ONLY) = true := hcu ▸ hra
  simp [p3SaveUserPermissions, hcu, hra2, hfind, hself]

theorem replaceById_changeHistory (users : List User) (uid : Nat) (u2 : User)
    (h : ∀ t, users.find? (fun u => u.id == uid) = some t →
      u2.changeHistory = t.changeHistory) :
    (replaceById users uid u2).map User.changeHistory =
      users.map User.changeHistory := by
  induction users with
  | nil => rfl
  | cons a rest ih =>
    unfold replaceById
    by_cases ha : (a.id == uid) = true
    · rw [if_pos ha]
      have := h a (List.find?_cons_of_pos rest ha)
      simp [this]
    · rw [if_neg ha]
      simp only [List.map]
      rw [ih fun t ht => h t (by rw [List.find?_cons_of_neg rest ha]; exact ht)]

theorem p3_history_preserved (st : St) (uid : Nat)
    (sel : List (String × SelectValue)) :
    (p3SaveUserPermissions st uid sel).1.users.map User.changeHistory =
      st.users.map User.changeHistory := by
  by_cases hra : isRoleAllowed st.currentUser (.list DIRECTOR_ONLY) = true
  · cases hcu : st.currentUser with
    | none => rw [hcu] at hra; simp [isRoleAllowed] at hra
    | some cu =>
      cases hfind : st.users.find? (fun u => u.id == uid) with
      | none => rw [p3_notfound st uid sel hra hfind]
      | some target =>
        by_cases hself : (target.id == cu.id) = true
        · rw [p3_self st uid sel cu target hra hfind hcu hself]
        · rw [p3_saved st uid sel cu target hra hfind hcu
            (bool_false_of_not_true hself)]
          exact replaceById_changeHistory st.users uid _ fun t ht => by
            rw [hfind] at ht
            rw [Option.some.inj ht]
  · rw [p3_perm st uid sel (bool_false_of_not_true hra)]

/-- C6: with a target found for the given id, a director actor editing
their own overrides is rejected as self-modification with the state
(including the target's tabAccess and changeHistory) unchanged, in both
`saveUserPermissions` variants; a successful outcome is only reached
when the target's id differs from the actor's. -/
theorem saveUserPermissions_self_rejected (st : St) (uid : Nat)
    (sel : List (String × SelectValue)) (now : String) (cu target : User)
    (hcu : st.currentUser = some cu)
    (hfind : st.users.find? (fun u => u.id == uid) = some target) :
    (cu.role = "director" → target.id = cu.id →
      saveUserPermissions st uid sel now = (st, .selfModification) ∧
      p3SaveUserPermissions st uid sel = (st, .selfModification)) ∧
    ((saveUserPermissions st uid sel now).2 = .saved ∨
      (saveUserPermissions st uid sel now).2 = .noChange ∨
      (p3SaveUserPermissions st uid sel).2 = .saved →
      target.id ≠ cu.id) := by
  constructor
  · intro hdir heq
    have hra : isRoleAllowed st.currentUser (.list DIRECTOR_ONLY) = true := by
      rw [hcu]
      simp [isRoleAllowed, DIRECTOR_ONLY, hdir]
    have hself : (target.id == cu.id) = true := by simp [heq]
    exact ⟨sup_self st uid sel now cu target hra hfind hcu hself,
           p3_self st uid sel cu target hra hfind hcu hself⟩
  · intro hsuc
    by_contra hne
    have hself : (target.id == cu.id) = true := by simp [hne]
    by_cases hra : isRoleAllowed st.currentUser (.list DIRECTOR_ONLY) = true
    · rw [sup_self st uid sel now cu target hra hfind hcu hself,
        p3_self st uid sel cu target hra hfind hcu hself] at hsuc
      simp at hsuc
    · have hraf := bool_false_of_not_true hra
      rw [sup_perm st uid sel now hraf, p3_perm st uid sel hraf] at hsuc
      simp at hsuc

theorem c6_witness :
    saveUserPermissions ⟨[⟨1, "Dir", "director", none, []⟩], [], 0,
        some ⟨1, "Dir", "director", none, []⟩⟩ 1 [] "d" =
      (⟨[⟨1, "Dir", "director", none, []⟩], [], 0,
        some ⟨1, "Dir", "director", none, []⟩⟩, .selfModification) ∧
    p3SaveUserPermissions ⟨[⟨1, "Dir", "director", none, []⟩], [], 0,
        some ⟨1, "Dir", "director", none, []⟩⟩ 1 [] =
      (⟨[⟨1, "Dir", "director", none, []⟩], [], 0,
        some ⟨1, "Dir", "director", none, []⟩⟩, .selfModification) :=
  (saveUserPermissions_self_rejected
    ⟨[⟨1, "Dir", "director", none, []⟩], [], 0,
      some ⟨1, "Dir", "director", none, []⟩⟩ 1 [] "d"
    ⟨1, "Dir", "director", none, []⟩ ⟨1, "Dir", "director", none, []⟩
    rfl (by decide)).1 rfl rfl

/-- C8 counterexample: a director actor changes a staff target's
override map from absent to one entry through the part_003
`saveUserPermissions` variant; the save succeeds and rewrites the map,
yet the target's changeHistory stays empty — no audit entry at all is
appended although the override map changed. -/
theorem c8_p3_appends_no_history :
    p3SaveUserPermissions
      ⟨[⟨1, "Dir", "director", none, []⟩, ⟨2, "Tia", "staff", none, []⟩], [], 0,
        some ⟨1, "Dir", "director", none, []⟩⟩ 2 [("cadastro", .viewOpt)] =
      (⟨[⟨1, "Dir", "director", none, []⟩,
         ⟨2, "Tia", "staff", some [("cadastro", "view")], []⟩], [], 0,
        some ⟨1, "Dir", "director", none, []⟩⟩, .saved) := by
  decide

/-- C8 amended: in the funcionarios-module `saveUserPermissions`, when
the new override map equals the stored one nothing changes, and when it
differs exactly one changeHistory entry is appended, recording the full
old and the full new override map; the duplicate part_003 variant
instead stores the new map without ever appending a changeHistory
entry. -/
theorem saveUserPermissions_history_amended (st : St) (uid : Nat)
    (sel : List (String × SelectValue)) (now : String) (cu target : User)
    (hra : isRoleAllowed st.currentUser (.list DIRECTOR_ONLY) = true)
    (hcu : st.currentUser = some cu)
    (hfind : st.users.find? (fun u => u.id == uid) = some target)
    (hself : (target.id == cu.id) = false) :
    (mapEqb (buildNewTabAccess sel) (target.tabAccess.getD []) = true →
      saveUserPermissions st uid sel now = (st, .noChange)) ∧
    (mapEqb (buildNewTabAccess sel) (target.tabAccess.getD []) = false →
      saveUserPermissions st uid sel now =
        ({ st with
           users := (replaceById st.users uid
             ⟨target.id, target.name, target.role,
              (if !(buildNewTabAccess sel).isEmpty
               then some (buildNewTabAccess sel) else none),
              target.changeHistory ++
                [⟨st.nextChangeId, now, cu.name,
                  [⟨"Permissões de Aba", histValue (target.tabAccess.getD []),
                    histValue (buildNewTabAccess sel)⟩]⟩]⟩)
           nextChangeId := st.nextChangeId + 1 }, .saved)) ∧
    ((p3SaveUserPermissions st uid sel).1.users.map User.changeHistory =
      st.users.map User.changeHistory) :=
  ⟨fun heq => sup_nochange st uid sel now cu target hra hfind hcu hself heq,
   fun heq => sup_saved st uid sel now cu target hra hfind hcu hself heq,
   p3_history_preserved st uid sel⟩

theorem c8_amended_witness :
    (saveUserPermissions
      ⟨[⟨1, "Dir", "director", none, []⟩, ⟨2, "Tia", "staff", none, []⟩], [], 0,
        some ⟨1, "Dir", "director", none, []⟩⟩ 2
      [("cadastro", .viewOpt)] "2024-01-01").2 = .saved :=
  congrArg Prod.snd
    ((saveUserPermissions_history_amended
      ⟨[⟨1, "Dir", "director", none, []⟩, ⟨2, "Tia", "staff", none, []⟩], [], 0,
        some ⟨1, "Dir", "director", none, []⟩⟩ 2
      [("cadastro", .viewOpt)] "2024-01-01"
      ⟨1, "Dir", "director", none, []⟩ ⟨2, "Tia", "staff", none, []⟩
      (by decide) rfl (by decide) (by decide)).2.1 (by decide))

end DomBosco
